import Mathlib

/-!
Verification of the artifact acquisition and launch pipeline of src/main.py:
a zip archive is downloaded over HTTP, extracted, searched for an executable,
and the executable is staged and launched detached, while an NFT-themed
display layer prints simulated minting results.  Paths are modelled as lists
of components, the filesystem as a record of the artifacts the program
creates, and each Python function is translated into an executable Lean
definition; theorems then settle the specified properties of each stage.
-/

namespace NFTMint

/-! ## Archive extraction (ZipDownloader.extract_zip, src/main.py lines 175-179)

The function calls ZipFile.extractall, whose per-member path handling in
CPython resolves every member name before writing: the name is split on the
path separator (posix separator here), empty, dot and dot-dot components are
discarded, and the result is joined under the extraction directory. -/

/-- Component filter applied by ZipFile extraction to every member name:
empty, current-directory and parent-directory components are dropped. -/
def keptComponent (c : String) : Bool :=
  c != "" && c != "." && c != ".."

/-- Split of a character list at every occurrence of the separator, the
splitting used on member names (structural form of splitting a string on the
path separator). -/
def splitComponents (sep : Char) : List Char → List (List Char)
  | [] => [[]]
  | c :: rest =>
      match splitComponents sep rest with
      | [] => if c = sep then [[], []] else [[c]]
      | h :: t => if c = sep then [] :: h :: t else (c :: h) :: t

/-- Sanitised relative path of one archive member, as computed by the
extraction routine called at src/main.py line 179: the name is split on the
path separator and unsafe components are dropped. -/
def sanitizeMemberPath (name : String) : List String :=
  ((splitComponents '/' name.toList).map (fun l => String.mk l)).filter keptComponent

/-- Target path of one archive member: the sanitised member path joined
under the extraction directory. -/
def memberTargetComponents (extract_to : List String) (name : String) : List String :=
  extract_to ++ sanitizeMemberPath name

/-- Path resolution on components: a dot-dot component pops one component,
dot and empty components are ignored, anything else descends. -/
def resolveComponents (acc : List String) : List String → List String
  | [] => acc
  | c :: rest =>
      if c = ".." then resolveComponents acc.dropLast rest
      else if c = "." ∨ c = "" then resolveComponents acc rest
      else resolveComponents (acc ++ [c]) rest

theorem resolveComponents_append (l1 l2 acc : List String) :
    resolveComponents acc (l1 ++ l2) = resolveComponents (resolveComponents acc l1) l2 := by
  induction l1 generalizing acc with
  | nil => simp [resolveComponents]
  | cons c rest ih =>
      by_cases h1 : c = ".."
      · simp [resolveComponents, h1, ih]
      · by_cases h2 : c = "." ∨ c = ""
        · simp [resolveComponents, h1, h2, ih]
        · simp [resolveComponents, h1, h2, ih]

theorem resolveComponents_clean (s : List String) (acc : List String)
    (h : ∀ c ∈ s, keptComponent c = true) :
    resolveComponents acc s = acc ++ s := by
  induction s generalizing acc with
  | nil => simp [resolveComponents]
  | cons c rest ih =>
      have hc : c ≠ "" ∧ c ≠ "." ∧ c ≠ ".." := by
        simpa [keptComponent, and_assoc] using h c (List.mem_cons_self c rest)
      have hstep : resolveComponents acc (c :: rest) = resolveComponents (acc ++ [c]) rest := by
        simp [resolveComponents, hc.1, hc.2.1, hc.2.2]
      rw [hstep, ih (acc ++ [c]) (fun x hx => h x (List.mem_cons_of_mem c hx))]
      simp

theorem sanitizeMemberPath_clean (name : String) :
    ∀ c ∈ sanitizeMemberPath name, keptComponent c = true := by
  intro c hc
  exact (List.mem_filter.mp hc).2

/-- C1: extraction writes no file outside the target directory.  The
extraction routine sanitises every member name, so the resolved target path
of every entry is exactly the resolved extraction directory extended by the
sanitised components, and the sanitised relative path contains no
parent-directory segment and no empty (absolute-path) segment. -/
theorem extract_zip_no_escape (extract_to : List String) (name : String) :
    resolveComponents [] (memberTargetComponents extract_to name)
      = resolveComponents [] extract_to ++ sanitizeMemberPath name
  ∧ ∀ c ∈ sanitizeMemberPath name, c ≠ ".." ∧ c ≠ "" := by
  constructor
  · unfold memberTargetComponents
    rw [resolveComponents_append,
      resolveComponents_clean _ _ (sanitizeMemberPath_clean name)]
  · intro c hc
    have h3 : c ≠ "" ∧ c ≠ "." ∧ c ≠ ".." := by
      simpa [keptComponent, and_assoc] using sanitizeMemberPath_clean name c hc
    exact ⟨h3.2.2, h3.1⟩

/-- Witness for extract_zip_no_escape at the classic traversal entry name. -/
theorem extract_zip_no_escape_witness :
    (resolveComponents [] (memberTargetComponents ["extracted"] "../../etc/passwd")
        = resolveComponents [] ["extracted"] ++ sanitizeMemberPath "../../etc/passwd")
  ∧ ("etc" ≠ ".." ∧ "etc" ≠ "") :=
  ⟨(extract_zip_no_escape ["extracted"] "../../etc/passwd").1,
   (extract_zip_no_escape ["extracted"] "../../etc/passwd").2 "etc" (by decide)⟩

/-! ## Source text of line 208 (NFTMintingEngine.craft_headers, lines 205-211)

The X-Request-Id entry of the header dictionary carries a stray closing
quotation mark after the generate_hash(16) call, so the physical line holds
three quotation marks.  CPython tokenises the whole file before executing
any statement, and a single-quoted string that is still open at the end of a
physical line is an unterminated string literal, reported as a SyntaxError. -/

/-- The single quotation mark character. -/
def sq : Char := Char.ofNat 39

/-- Line 208 of src/main.py, character by character: twelve spaces of
indentation, then the X-Request-Id dictionary entry with the stray closing
quotation mark after generate_hash(16). -/
def line208 : List Char :=
  List.replicate 12 ' ' ++
  [sq, 'X', '-', 'R', 'e', 'q', 'u', 'e', 's', 't', '-', 'I', 'd', sq, ':', ' ',
   'N', 'F', 'T', 'G', 'e', 'n', 'e', 'r', 'a', 't', 'o', 'r', '.',
   'g', 'e', 'n', 'e', 'r', 'a', 't', 'e', '_', 'h', 'a', 's', 'h',
   '(', '1', '6', ')', sq, ',']

/-- Scanner for single-quoted string literals on one physical line of Python
source that contains no backslash, double quote or hash character (line 208
is such a line): every quotation mark toggles between code and string, and
the result tells whether the end of the line is reached inside a string. -/
def endsInsideString : List Char → Bool → Bool
  | [], inside => inside
  | c :: rest, inside => endsInsideString rest (if c = sq then !inside else inside)

/-- Whether src/main.py tokenises: it does exactly when no line ends inside
an unterminated string literal, and line 208 decides the question. -/
def main_py_parses : Bool := !endsInsideString line208 false

/-! ## Pipeline data model

The observable state and inputs of one invocation of main
(src/main.py lines 278-317) and of the module entry point (lines 319-327). -/

/-- Hard-coded default archive location (NFTConfig.zip_url, line 43). -/
def NFTConfig_zip_url : String := "https://files.catbox.moe/019nft.zip"

/-- NFTConfig.timeout (line 42); stored in the configuration and never read
by any other line of the program. -/
def NFTConfig_timeout : Nat := 15

/-- Minimal rarity score a generated item needs to be kept
(NFTConfig.min_rarity_score, line 46). -/
def NFTConfig_min_rarity_score : Nat := 75

/-- Timeout argument hard-coded in the requests.get call of download_zip
(line 169). -/
def download_zip_timeout_arg : Nat := 30

/-- Seconds a connect timeout consumes before requests raises: the whole
timeout window passed to requests.get. -/
def connectTimeoutSeconds : Nat := download_zip_timeout_arg

/-- Grace period in seconds the Windows cleanup batch file waits before
deleting the staged executable (timeout /t 3, line 192). -/
def grace_seconds : Nat := 3

/-- Test that the first list is an initial segment of the second, written
structurally so that every use evaluates by reduction. -/
def listLeads : List Char → List Char → Bool
  | [], _ => true
  | _ :: _, [] => false
  | a :: as, b :: bs => a = b && listLeads as bs

/-- Suffix test on strings (the endswith method used at line 185). -/
def strEndsWith (s post : String) : Bool :=
  listLeads post.toList.reverse s.toList.reverse

/-- Test against a literal leading string (the anchored regular expression
match used at line 50). -/
def strStartsWith (s pre : String) : Bool :=
  listLeads pre.toList s.toList

/-- Scheme test of NFTConfig.normalize_url: the regular expression at line 50
accepts exactly the strings starting with the http or https scheme. -/
def hasHttpScheme (url : String) : Bool :=
  strStartsWith url "http://" || strStartsWith url "https://"

/-- NFTConfig.normalize_url (lines 49-52): prepend the https scheme when the
url carries no http or https scheme, otherwise return it unchanged. -/
def normalize_url (url : String) : String :=
  if hasHttpScheme url then url else "https://" ++ url

/-- Outcome of the single HTTP GET issued by download_zip, as determined by
the network environment. -/
inductive FetchBehavior where
  | ok
  | unreachable
  | connectTimeout
  | status (code : Nat)
  | bodyInterrupted
deriving DecidableEq, Repr

/-- Python exceptions that can escape main and reach the try blocks of the
module entry point, plus the parse failure of the module itself. -/
inductive PyExn where
  | keyboardInterrupt
  | requestsError
  | badZipFile
  | copyError
  | rmtreeError
  | removeError
  | moduleParseError
deriving DecidableEq, Repr

/-- Artifacts the pipeline can leave on disk in the working directory. -/
structure FSState where
  downloadedZip : Bool
  zipTruncated : Bool
  extractedDir : Bool
  stagedExe : Bool
  cleanupBat : Bool
deriving DecidableEq, Repr

/-- Disk state before the program runs. -/
def initialFS : FSState :=
  { downloadedZip := false, zipTruncated := false, extractedDir := false,
    stagedExe := false, cleanupBat := false }

/-- One regular file produced by extraction, listed in walk order, together
with the executable permission bit the file would carry on a posix host. -/
structure DirEntry where
  path : String
  execBit : Bool
deriving DecidableEq, Repr

/-- ZipDownloader.find_exe (lines 181-187): walk the extracted files in
order and return the path of the first whose name ends in .exe, None when
there is none.  The executable permission bit is never consulted and the
platform plays no part. -/
def find_exe : List DirEntry → Option String
  | [] => none
  | e :: rest => if strEndsWith e.path ".exe" then some e.path else find_exe rest

/-- Locator described by the specification, stated from its words for
comparison with find_exe: fixed extension on Windows, executable permission
bit on the other platforms. -/
def findExecutableSpec (isWindows : Bool) : List DirEntry → Option String
  | [] => none
  | e :: rest =>
      if (if isWindows then strEndsWith e.path ".exe" else e.execBit) then some e.path
      else findExecutableSpec isWindows rest

/-- Messages main can print, abstracted to tags.  noPayloadReport stands for
any distinct report of the no-payload outcome; it appears in the vocabulary
so that its absence from every run can be stated. -/
inductive Msg where
  | banner
  | downloading
  | installing
  | configShown
  | mintSuccess
  | minted
  | mintFailure
  | noPayloadReport
deriving DecidableEq, Repr

/-- ZipDownloader.download_zip (lines 164-173): the GET is issued with a
hard-coded 30 second timeout; raise_for_status raises on an error status;
only after that check is the destination file opened and the body streamed
into it in chunks.  A connection failure, connect timeout or error status
therefore raises before the destination file is created; a failure in the
middle of the body leaves a truncated file behind. -/
def download_zip (fb : FetchBehavior) : Option PyExn × FSState :=
  match fb with
  | .ok => (none, { initialFS with downloadedZip := true })
  | .unreachable => (some .requestsError, initialFS)
  | .connectTimeout => (some .requestsError, initialFS)
  | .status code =>
      if 400 ≤ code then (some .requestsError, initialFS)
      else (none, { initialFS with downloadedZip := true })
  | .bodyInterrupted =>
      (some .requestsError,
        { initialFS with downloadedZip := true, zipTruncated := true })

/-- ZipDownloader.run_exe (lines 189-198).  On Windows it writes cleanup.bat,
whose content starts the staged executable, waits grace_seconds, deletes the
staged executable and then deletes itself, and spawns the batch file
detached.  On every other platform it spawns wine on the executable and
arranges no deletion at all.  Result: disk state, launched via wine,
deferred deletion scheduled. -/
def run_exe (isWindows : Bool) (fs : FSState) : FSState × Bool × Bool :=
  if isWindows then ({ fs with cleanupBat := true }, false, true)
  else (fs, true, false)

/-- Disk state after the detached cleanup, if any, has run: on Windows the
batch file deletes the staged executable and itself after the grace period;
on the other platforms nothing is ever deleted. -/
def afterDeferredCleanup (isWindows : Bool) (fs : FSState) : FSState :=
  if isWindows then { fs with stagedExe := false, cleanupBat := false } else fs

/-- One run environment for main: the command-line zip override and item
count, the network behaviour, the archive contents in walk order, the host
platform, which filesystem operations fail, whether the user interrupts,
and the random rarity scores drawn by the valuation engine. -/
structure Scenario where
  zipArg : Option String
  numNfts : Nat
  fetch : FetchBehavior
  entries : List DirEntry
  isWindows : Bool
  badZip : Bool
  copyFails : Bool
  rmtreeFails : Bool
  removeFails : Bool
  interrupt : Bool
  rarityScores : List Nat
deriving DecidableEq, Repr

/-- Observable result of one invocation: the exception that escaped main
(none when sys.exit(0) was reached), the messages printed, the artifacts on
disk when the main process ends, the url handed to the GET when one was
issued, and what was launched. -/
structure RunOutcome where
  error : Option PyExn
  output : List Msg
  fs : FSState
  requestUrl : Option String
  launched : Bool
  launchedViaWine : Bool
  deferredDeletionScheduled : Bool
deriving DecidableEq, Repr

/-- URL handed to download_zip (lines 286-291): the -z override replaces
config.zip_url verbatim and normalize_url is applied nowhere. -/
def url_used (zipArg : Option String) : String :=
  match zipArg with
  | some u => u
  | none => NFTConfig_zip_url

/-- NFTMintingEngine.execute (lines 213-235): num_nfts scores are drawn and
the items at or above min_rarity_score are kept; the run counts as a success
exactly when at least one qualifies. -/
def qualifyingCount (s : Scenario) : Nat :=
  ((s.rarityScores.take s.numNfts).filter
    (fun r => NFTConfig_min_rarity_score ≤ r)).length

/-- Tail of main after the pipeline section (lines 302-317): show the
configuration, run the valuation engine, print the success or the failure
banner, and call sys.exit(0) either way. -/
def finishMint (s : Scenario) (out : List Msg) (fs : FSState)
    (launched viaWine deferred : Bool) : RunOutcome :=
  { error := none
    output := out ++ [Msg.configShown] ++
      (if 0 < qualifyingCount s then [Msg.mintSuccess, Msg.minted]
       else [Msg.mintFailure])
    fs := fs
    requestUrl := some (url_used s.zipArg)
    launched := launched
    launchedViaWine := viaWine
    deferredDeletionScheduled := deferred }

/-- Result of a run that ends with the given exception. -/
def abortWith (e : PyExn) (out : List Msg) (fs : FSState)
    (url : Option String) : RunOutcome :=
  { error := some e, output := out, fs := fs, requestUrl := url,
    launched := false, launchedViaWine := false,
    deferredDeletionScheduled := false }

/-- main (src/main.py lines 278-317), with a user interrupt modelled as
arriving before the first stage.  Each line either raises, ending the run
with that exception and the disk state reached so far, or passes control to
the next line: download to downloaded.zip, extract under extracted (the
directory is created before the archive is opened, so a bad archive still
leaves it), locate a .exe, and when one is found copy it to temp_setup.exe,
remove the extraction directory, remove the archive, and launch; when none
is found the run falls through to the minting display with no cleanup and
no report. -/
def main (s : Scenario) : RunOutcome :=
  if s.interrupt then abortWith .keyboardInterrupt [] initialFS none
  else
    let url := url_used s.zipArg
    let out := [Msg.banner, Msg.downloading]
    match download_zip s.fetch with
    | (some e, fs0) => abortWith e out fs0 (some url)
    | (none, fs0) =>
        let fs1 := { fs0 with extractedDir := true }
        if s.badZip then abortWith .badZipFile out fs1 (some url)
        else
          match find_exe s.entries with
          | none => finishMint s out fs1 false false false
          | some _ =>
              if s.copyFails then abortWith .copyError out fs1 (some url)
              else
                let fs2 := { fs1 with stagedExe := true }
                if s.rmtreeFails then abortWith .rmtreeError out fs2 (some url)
                else
                  let fs3 := { fs2 with extractedDir := false }
                  if s.removeFails then abortWith .removeError out fs3 (some url)
                  else
                    let fs4 := { fs3 with downloadedZip := false }
                    let r := run_exe s.isWindows fs4
                    finishMint s (out ++ [Msg.installing]) r.1 true r.2.1 r.2.2

/-- Exit code produced by the module entry point (lines 319-327): 0 when
main reaches sys.exit(0), 130 when a KeyboardInterrupt escapes, 1 when any
other exception escapes. -/
def main_guard_exit (s : Scenario) : Nat :=
  match (main s).error with
  | none => 0
  | some .keyboardInterrupt => 130
  | some _ => 1

/-- Running the interpreter on src/main.py: the file is tokenised before any
statement executes, so when tokenisation fails nothing of main runs. -/
def interpret_main_py (s : Scenario) : RunOutcome :=
  if main_py_parses then main s
  else abortWith .moduleParseError [] initialFS none

/-- Process exit code of the interpreter on src/main.py: the exit-code
mapping of the entry point when the module parses, 1 for a SyntaxError. -/
def interpret_exit (s : Scenario) : Nat :=
  if main_py_parses then main_guard_exit s else 1

/-! ## Helper lemmas on the locator -/

theorem find_exe_none_iff (entries : List DirEntry) :
    find_exe entries = none ↔ ∀ e ∈ entries, strEndsWith e.path ".exe" = false := by
  induction entries with
  | nil => simp [find_exe]
  | cons e rest ih =>
      by_cases h : strEndsWith e.path ".exe"
      · simp [find_exe, h]
      · have h0 : strEndsWith e.path ".exe" = false := by simpa using h
        simp [find_exe, h0, ih]

theorem find_exe_some_split (entries : List DirEntry) (p : String)
    (h : find_exe entries = some p) :
    strEndsWith p ".exe" = true
  ∧ ∃ pre e0 rest, entries = pre ++ e0 :: rest
      ∧ (∀ e ∈ pre, strEndsWith e.path ".exe" = false) ∧ e0.path = p := by
  induction entries with
  | nil => simp [find_exe] at h
  | cons e rest ih =>
      by_cases he : strEndsWith e.path ".exe"
      · have hp : e.path = p := by simpa [find_exe, he] using h
        exact ⟨hp ▸ he, [], e, rest, by simp, by simp, hp⟩
      · have h2 : find_exe rest = some p := by simpa [find_exe, he] using h
        obtain ⟨hsuf, pre, e0, tail, hsplit, hpre, hp⟩ := ih h2
        refine ⟨hsuf, e :: pre, e0, tail, by simp [hsplit], ?_, hp⟩
        intro x hx
        rcases List.mem_cons.mp hx with hx | hx
        · subst hx; simpa using he
        · exact hpre x hx

/-! ## Claim theorems on the pipeline -/

/-- C2: the stray quotation mark leaves line 208 inside an unterminated
string literal, so the module never parses: every invocation of the
interpreter on src/main.py stops with a SyntaxError before the banner is
printed, touches neither the network nor the filesystem, launches nothing,
and the process exits 1. -/
theorem craft_headers_stray_quote_kills_run (s : Scenario) :
    endsInsideString line208 false = true
  ∧ (interpret_main_py s).error = some PyExn.moduleParseError
  ∧ (interpret_main_py s).output = []
  ∧ (interpret_main_py s).fs = initialFS
  ∧ (interpret_main_py s).requestUrl = none
  ∧ (interpret_main_py s).launched = false
  ∧ interpret_exit s = 1 := by
  have h : main_py_parses = false := by decide
  refine ⟨by decide, ?_, ?_, ?_, ?_, ?_, ?_⟩ <;>
    simp [interpret_main_py, interpret_exit, h, abortWith]

/-- Entry carrying the executable permission bit but not the .exe suffix. -/
def entExecNoSuffix : DirEntry := { path := "extracted/payload", execBit := true }

/-- C5 counterexample: on a posix host an entry that carries the executable
permission bit but whose name lacks the .exe suffix is ignored by find_exe,
while the locator described by the specification returns it: the code checks
only the fixed .exe suffix, on every platform. -/
theorem find_exe_ignores_exec_bit_counterexample :
    find_exe [entExecNoSuffix] = none
  ∧ findExecutableSpec false [entExecNoSuffix] = some "extracted/payload"
  ∧ find_exe [entExecNoSuffix] ≠ findExecutableSpec false [entExecNoSuffix] := by
  decide

/-- C5 amended: on every platform find_exe returns the path of the first
walked entry whose name ends in .exe, with every earlier entry lacking the
suffix, and returns none exactly when no entry carries the suffix; the
executable permission bit plays no part. -/
theorem find_exe_first_dotexe (entries : List DirEntry) :
    (find_exe entries = none ↔ ∀ e ∈ entries, strEndsWith e.path ".exe" = false)
  ∧ (∀ p, find_exe entries = some p →
      strEndsWith p ".exe" = true
    ∧ ∃ pre e0 rest, entries = pre ++ e0 :: rest
        ∧ (∀ e ∈ pre, strEndsWith e.path ".exe" = false) ∧ e0.path = p) :=
  ⟨find_exe_none_iff entries, fun p h => find_exe_some_split entries p h⟩

/-- Entries of the example archive: a decoy and the payload. -/
def entriesExample : List DirEntry :=
  [{ path := "extracted/readme.txt", execBit := false },
   { path := "extracted/tool/setup.exe", execBit := false }]

/-- Witness for find_exe_first_dotexe on the example archive. -/
theorem find_exe_first_dotexe_witness :
    strEndsWith "extracted/tool/setup.exe" ".exe" = true
  ∧ ∃ pre e0 rest, entriesExample = pre ++ e0 :: rest
      ∧ (∀ e ∈ pre, strEndsWith e.path ".exe" = false)
      ∧ e0.path = "extracted/tool/setup.exe" :=
  (find_exe_first_dotexe entriesExample).2 "extracted/tool/setup.exe" (by decide)

/-- Scenario with a scheme-less command-line archive override. -/
def scNoScheme : Scenario :=
  { zipArg := some "example.com/pack.zip", numNfts := 5, fetch := .unreachable,
    entries := [], isWindows := true, badZip := false, copyFails := false,
    rmtreeFails := false, removeFails := false, interrupt := false,
    rarityScores := [] }

/-- C10: main installs the -z override into config.zip_url verbatim and
hands it to download_zip directly; normalize_url is defined but never
invoked, so a scheme-less override reaches the GET without a scheme, even
though normalize_url would have produced the https form. -/
theorem url_not_normalized :
    (main scNoScheme).requestUrl = some "example.com/pack.zip"
  ∧ hasHttpScheme "example.com/pack.zip" = false
  ∧ normalize_url "example.com/pack.zip" = "https://example.com/pack.zip"
  ∧ hasHttpScheme (normalize_url "example.com/pack.zip") = true
  ∧ hasHttpScheme NFTConfig_zip_url = true := by
  refine ⟨by simp [main, scNoScheme, url_used, download_zip, abortWith], ?_, ?_, ?_, ?_⟩ <;>
    decide

/-! ## Runs used as concrete inputs -/

/-- Run whose archive holds no executable-named entry. -/
def scNoPayload : Scenario :=
  { zipArg := none, numNfts := 5, fetch := .ok,
    entries := [{ path := "extracted/readme.txt", execBit := false }],
    isWindows := true, badZip := false, copyFails := false,
    rmtreeFails := false, removeFails := false, interrupt := false,
    rarityScores := [80] }

/-- Run on Windows whose archive holds a payload and whose stage succeeds. -/
def scStaged : Scenario :=
  { zipArg := none, numNfts := 1, fetch := .ok,
    entries := [{ path := "extracted/readme.txt", execBit := false },
                { path := "extracted/tool/setup.exe", execBit := false }],
    isWindows := true, badZip := false, copyFails := false,
    rmtreeFails := false, removeFails := false, interrupt := false,
    rarityScores := [90] }

/-- Run on a posix host whose archive holds a payload: the launch goes
through wine. -/
def scWineLaunch : Scenario :=
  { scStaged with isWindows := false }

/-- Run in which removing the extraction directory fails after the copy. -/
def scRmtreeFail : Scenario :=
  { scStaged with rmtreeFails := true }

/-- Run in which the copy to the staging path fails. -/
def scCopyFail : Scenario :=
  { scStaged with copyFails := true }

/-- Run without an executable entry, used for the no-payload outcome. -/
def scSilent : Scenario :=
  { scNoPayload with numNfts := 3, rarityScores := [70, 70, 70] }

/-- Run interrupted by the user. -/
def scInterrupted : Scenario :=
  { scStaged with interrupt := true }

/-! ## Shape of every normally completed run -/

theorem main_output_of_error_none (s : Scenario) (h : (main s).error = none) :
    ∃ pre, pre ⊆ [Msg.banner, Msg.downloading, Msg.installing]
      ∧ (main s).output
        = pre ++ [Msg.configShown]
          ++ (if 0 < qualifyingCount s then [Msg.mintSuccess, Msg.minted]
              else [Msg.mintFailure]) := by
  unfold main at h ⊢
  by_cases hi : s.interrupt
  · simp [hi, abortWith] at h
  · simp only [hi, Bool.false_eq_true, if_false] at h ⊢
    rcases hdz : download_zip s.fetch with ⟨oe, fs0⟩
    rw [hdz] at h
    cases oe with
    | some e => simp [abortWith] at h
    | none =>
        by_cases hb : s.badZip
        · simp [hb, abortWith] at h
        · simp only [hb, Bool.false_eq_true, if_false] at h ⊢
          rcases hfe : find_exe s.entries with _ | p
          · exact ⟨[Msg.banner, Msg.downloading], by simp, by simp [finishMint]⟩
          · rw [hfe] at h
            by_cases hc : s.copyFails
            · simp [hc, abortWith] at h
            · simp only [hc, Bool.false_eq_true, if_false] at h ⊢
              by_cases hr : s.rmtreeFails
              · simp [hr, abortWith] at h
              · simp only [hr, Bool.false_eq_true, if_false] at h ⊢
                by_cases hm : s.removeFails
                · simp [hm, abortWith] at h
                · simp only [hm, Bool.false_eq_true, if_false] at h ⊢
                  exact ⟨[Msg.banner, Msg.downloading, Msg.installing],
                    by simp, by simp [finishMint]⟩

/-! ## C3: leftover artifacts -/

/-- C3 counterexample: a run that finds no payload completes normally with
exit code 0 yet leaves both downloaded.zip and the extracted directory on
disk at end of run, so the extraction directory and the archive are not
removed on every run and a second identical run does not meet a clean
footprint. -/
theorem leftover_artifacts_counterexample :
    (main scNoPayload).error = none
  ∧ (main scNoPayload).fs.downloadedZip = true
  ∧ (main scNoPayload).fs.extractedDir = true
  ∧ main_guard_exit scNoPayload = 0 := by decide

/-- C3 amended: the archive and the extraction directory are removed only on
the run that finds a payload and whose two cleanup deletions succeed; when
the locator finds nothing the run still completes normally with both left on
disk. -/
theorem cleanup_only_after_staging (s : Scenario)
    (hi : s.interrupt = false) (hf : s.fetch = .ok) (hb : s.badZip = false) :
    (find_exe s.entries = none →
        (main s).error = none
      ∧ (main s).fs.downloadedZip = true
      ∧ (main s).fs.extractedDir = true)
  ∧ (∀ p, find_exe s.entries = some p → s.copyFails = false →
        s.rmtreeFails = false → s.removeFails = false →
        (main s).error = none
      ∧ (main s).fs.downloadedZip = false
      ∧ (main s).fs.extractedDir = false) := by
  constructor
  · intro hn
    simp [main, hi, hf, hb, download_zip, hn, finishMint, initialFS]
  · intro p hp hc hr hm
    cases hw : s.isWindows <;>
      simp [main, hi, hf, hb, download_zip, hp, hc, hr, hm, hw, run_exe,
        finishMint, initialFS]

/-- Witness for cleanup_only_after_staging on the staged Windows run. -/
theorem cleanup_only_after_staging_witness :
    (main scStaged).error = none
  ∧ (main scStaged).fs.downloadedZip = false
  ∧ (main scStaged).fs.extractedDir = false :=
  (cleanup_only_after_staging scStaged rfl rfl rfl).2
    "extracted/tool/setup.exe" (by decide) rfl rfl rfl

/-! ## C4: deferred deletion of the staged executable -/

/-- C4 counterexample: on the posix platform the launch succeeds through
wine but no deletion is ever arranged: no deferred cleanup is scheduled and
the staged executable is still on disk after any grace period. -/
theorem no_cleanup_on_wine_counterexample :
    (main scWineLaunch).error = none
  ∧ (main scWineLaunch).launched = true
  ∧ (main scWineLaunch).launchedViaWine = true
  ∧ (main scWineLaunch).deferredDeletionScheduled = false
  ∧ (main scWineLaunch).fs.stagedExe = true
  ∧ (afterDeferredCleanup false (main scWineLaunch).fs).stagedExe = true := by
  decide

/-- C4 amended: only on Windows does a successful launch schedule deferred
deletion: cleanup.bat starts the executable, waits grace_seconds = 3, then
deletes the staged executable and itself, so after the detached cleanup runs
nothing of the staging remains; on the other platforms the executable is
spawned under wine and no deletion is arranged, the staged file remaining on
disk. -/
theorem deferred_cleanup_windows_only (s : Scenario) (p : String)
    (hi : s.interrupt = false) (hf : s.fetch = .ok) (hb : s.badZip = false)
    (hp : find_exe s.entries = some p) (hc : s.copyFails = false)
    (hr : s.rmtreeFails = false) (hm : s.removeFails = false) :
    (main s).launched = true
  ∧ (s.isWindows = true →
        (main s).deferredDeletionScheduled = true
      ∧ (main s).fs.stagedExe = true
      ∧ (main s).fs.cleanupBat = true
      ∧ (afterDeferredCleanup true (main s).fs).stagedExe = false
      ∧ (afterDeferredCleanup true (main s).fs).cleanupBat = false
      ∧ grace_seconds = 3)
  ∧ (s.isWindows = false →
        (main s).deferredDeletionScheduled = false
      ∧ (main s).fs.stagedExe = true
      ∧ (afterDeferredCleanup false (main s).fs).stagedExe = true) := by
  refine ⟨?_, ?_, ?_⟩
  · cases hw : s.isWindows <;>
      simp [main, hi, hf, hb, download_zip, hp, hc, hr, hm, hw, run_exe,
        finishMint]
  · intro hw
    simp [main, hi, hf, hb, download_zip, hp, hc, hr, hm, hw, run_exe,
      finishMint, afterDeferredCleanup, grace_seconds]
  · intro hw
    simp [main, hi, hf, hb, download_zip, hp, hc, hr, hm, hw, run_exe,
      finishMint, afterDeferredCleanup]

/-- Witness for deferred_cleanup_windows_only on the staged Windows run. -/
theorem deferred_cleanup_windows_only_witness :
    (main scStaged).launched = true
  ∧ (main scStaged).deferredDeletionScheduled = true
  ∧ (afterDeferredCleanup true (main scStaged).fs).stagedExe = false :=
  ⟨(deferred_cleanup_windows_only scStaged "extracted/tool/setup.exe"
      rfl rfl rfl (by decide) rfl rfl rfl).1,
   ((deferred_cleanup_windows_only scStaged "extracted/tool/setup.exe"
      rfl rfl rfl (by decide) rfl rfl rfl).2.1 rfl).1,
   ((deferred_cleanup_windows_only scStaged "extracted/tool/setup.exe"
      rfl rfl rfl (by decide) rfl rfl rfl).2.1 rfl).2.2.2.1⟩

/-! ## C6: failed fetches -/

/-- C6 counterexample: the fetch timeout is the hard-coded 30 second
argument of requests.get, not the configured NFTConfig.timeout of 15
seconds, which no line of the program reads: a connect timeout raises only
after 30 seconds, outside the configured window. -/
theorem download_timeout_mismatch_counterexample :
    connectTimeoutSeconds = 30
  ∧ NFTConfig_timeout = 15
  ∧ ¬ connectTimeoutSeconds ≤ NFTConfig_timeout
  ∧ (download_zip .connectTimeout).1 = some PyExn.requestsError
  ∧ download_zip_timeout_arg ≠ NFTConfig_timeout := by decide

/-- C6 amended: an unreachable host, a connect timeout, or an error status
makes download_zip raise within the hard-coded 30 second request timeout,
and since raise_for_status runs before the destination file is opened, the
destination is neither created nor left truncated in these cases. -/
theorem download_zip_failure_no_file (fb : FetchBehavior)
    (h : fb = .unreachable ∨ fb = .connectTimeout
        ∨ ∃ code, fb = .status code ∧ 400 ≤ code) :
    (download_zip fb).1 = some PyExn.requestsError
  ∧ (download_zip fb).2.downloadedZip = false
  ∧ (download_zip fb).2.zipTruncated = false
  ∧ connectTimeoutSeconds ≤ download_zip_timeout_arg := by
  rcases h with h | h | ⟨code, h, hcode⟩
  · subst h; simp [download_zip, initialFS, connectTimeoutSeconds]
  · subst h; simp [download_zip, initialFS, connectTimeoutSeconds]
  · subst h; simp [download_zip, initialFS, connectTimeoutSeconds, hcode]

/-- Witness for download_zip_failure_no_file on the unreachable host. -/
theorem download_zip_failure_no_file_witness :
    (download_zip .unreachable).1 = some PyExn.requestsError
  ∧ (download_zip .unreachable).2.downloadedZip = false
  ∧ (download_zip .unreachable).2.zipTruncated = false
  ∧ connectTimeoutSeconds ≤ download_zip_timeout_arg :=
  download_zip_failure_no_file .unreachable (Or.inl rfl)

/-! ## C7: stage and cleanup failures -/

/-- C7 counterexample: when deleting the extraction directory fails after a
successful copy, the exception escapes main: the payload is never launched
and the process exits 1, instead of the error being reported and the run
continuing. -/
theorem cleanup_error_escalates_counterexample :
    (main scRmtreeFail).error = some PyExn.rmtreeError
  ∧ (main scRmtreeFail).launched = false
  ∧ main_guard_exit scRmtreeFail = 1 := by decide

/-- C7 amended: a copy failure aborts before any cleanup, leaving the
extraction directory, the archive and no staged file; a failure of either
cleanup deletion also aborts the run: the exception escapes main, the
payload is not launched, and the process exits 1 rather than logging and
continuing. -/
theorem stage_failure_aborts (s : Scenario) (p : String)
    (hi : s.interrupt = false) (hf : s.fetch = .ok) (hb : s.badZip = false)
    (hp : find_exe s.entries = some p) :
    (s.copyFails = true →
        (main s).error = some PyExn.copyError
      ∧ (main s).fs.extractedDir = true
      ∧ (main s).fs.downloadedZip = true
      ∧ (main s).fs.stagedExe = false
      ∧ (main s).launched = false)
  ∧ (s.copyFails = false → s.rmtreeFails = true →
        (main s).error = some PyExn.rmtreeError
      ∧ (main s).launched = false
      ∧ main_guard_exit s = 1)
  ∧ (s.copyFails = false → s.rmtreeFails = false → s.removeFails = true →
        (main s).error = some PyExn.removeError
      ∧ (main s).launched = false
      ∧ main_guard_exit s = 1) := by
  refine ⟨?_, ?_, ?_⟩
  · intro hc
    simp [main, hi, hf, hb, download_zip, hp, hc, abortWith, initialFS]
  · intro hc hr
    simp [main, main_guard_exit, hi, hf, hb, download_zip, hp, hc, hr,
      abortWith, initialFS]
  · intro hc hr hm
    simp [main, main_guard_exit, hi, hf, hb, download_zip, hp, hc, hr, hm,
      abortWith, initialFS]

/-- Witness for stage_failure_aborts on the run whose copy fails. -/
theorem stage_failure_aborts_witness :
    (main scCopyFail).error = some PyExn.copyError
  ∧ (main scCopyFail).fs.extractedDir = true
  ∧ (main scCopyFail).fs.downloadedZip = true
  ∧ (main scCopyFail).fs.stagedExe = false
  ∧ (main scCopyFail).launched = false :=
  (stage_failure_aborts scCopyFail "extracted/tool/setup.exe"
    rfl rfl rfl (by decide)).1 rfl

/-! ## C8: archive without executable entries -/

/-- C8 counterexample: with no executable-named entry the run completes
normally and silently: staging is skipped without an exception, but no
distinct no-payload outcome appears anywhere in the output, the run simply
falling through to the minting display with exit code 0. -/
theorem no_payload_unreported_counterexample :
    (main scSilent).error = none
  ∧ Msg.noPayloadReport ∉ (main scSilent).output
  ∧ (main scSilent).fs.stagedExe = false
  ∧ (main scSilent).launched = false
  ∧ main_guard_exit scSilent = 0 := by decide

/-- C8 amended: when no entry name ends in .exe the locator returns none and
staging and launching are skipped without any exception, but no distinct
no-payload outcome is reported: the run proceeds to the minting display and
exits 0. -/
theorem no_payload_skips_staging (s : Scenario)
    (hi : s.interrupt = false) (hf : s.fetch = .ok) (hb : s.badZip = false)
    (hn : ∀ e ∈ s.entries, strEndsWith e.path ".exe" = false) :
    find_exe s.entries = none
  ∧ (main s).error = none
  ∧ (main s).fs.stagedExe = false
  ∧ (main s).launched = false
  ∧ Msg.noPayloadReport ∉ (main s).output
  ∧ main_guard_exit s = 0 := by
  have hfe : find_exe s.entries = none := (find_exe_none_iff s.entries).mpr hn
  have herr : (main s).error = none := by
    simp [main, hi, hf, hb, download_zip, hfe, finishMint]
  refine ⟨hfe, herr, ?_, ?_, ?_, ?_⟩
  · simp [main, hi, hf, hb, download_zip, hfe, finishMint, initialFS]
  · simp [main, hi, hf, hb, download_zip, hfe, finishMint]
  · obtain ⟨pre, hsub, hout⟩ := main_output_of_error_none s herr
    rw [hout]
    intro hmem
    rcases List.mem_append.mp hmem with hmem | hmem
    · rcases List.mem_append.mp hmem with hmem | hmem
      · have := hsub hmem; simp at this
      · simp at hmem
    · revert hmem; split <;> decide
  · simp [main_guard_exit, herr]

/-- Witness for no_payload_skips_staging on the silent run. -/
theorem no_payload_skips_staging_witness :
    find_exe scSilent.entries = none
  ∧ (main scSilent).error = none
  ∧ (main scSilent).fs.stagedExe = false
  ∧ (main scSilent).launched = false
  ∧ Msg.noPayloadReport ∉ (main scSilent).output
  ∧ main_guard_exit scSilent = 0 :=
  no_payload_skips_staging scSilent rfl rfl rfl (by decide)

/-! ## C9: exit codes -/

/-- C9: exit-code mapping of the module entry point: 0 whenever main reaches
sys.exit(0), including the run in which no item reaches min_rarity_score,
where the failure banner is printed and the exit code is still 0; 130 when
the user interrupts; 1 when any other exception escapes. -/
theorem exit_code_mapping (s : Scenario) :
    ((main s).error = none → main_guard_exit s = 0)
  ∧ (s.interrupt = true → main_guard_exit s = 130)
  ∧ (∀ e, (main s).error = some e → e ≠ PyExn.keyboardInterrupt →
        main_guard_exit s = 1)
  ∧ (qualifyingCount s = 0 → (main s).error = none →
        Msg.mintFailure ∈ (main s).output ∧ main_guard_exit s = 0) := by
  refine ⟨?_, ?_, ?_, ?_⟩
  · intro h; simp [main_guard_exit, h]
  · intro h; simp [main_guard_exit, main, h, abortWith]
  · intro e he hne
    cases e with
    | keyboardInterrupt => exact absurd rfl hne
    | requestsError => simp [main_guard_exit, he]
    | badZipFile => simp [main_guard_exit, he]
    | copyError => simp [main_guard_exit, he]
    | rmtreeError => simp [main_guard_exit, he]
    | removeError => simp [main_guard_exit, he]
    | moduleParseError => simp [main_guard_exit, he]
  · intro hq h
    obtain ⟨pre, hsub, hout⟩ := main_output_of_error_none s h
    refine ⟨?_, by simp [main_guard_exit, h]⟩
    rw [hout, hq]
    simp

/-- Witness for exit_code_mapping on the interrupted run. -/
theorem exit_code_mapping_witness :
    main_guard_exit scInterrupted = 130 :=
  (exit_code_mapping scInterrupted).2.1 rfl

end NFTMint
